import Mathlib

/-!
Shallow embedding of the delayed-gratification pipeline of
`src/delayed_gratification.py` (personal-finance portfolio repository),
together with theorems settling the specification claims about it.

Modelling conventions:
* pandas DataFrames become lists of records; monetary amounts are `ℚ`
  (Python floats carry exact decimal literals in every claim considered);
* a calendar date is `(year, month, day)` and `pandas.Period('M')`
  truncation becomes the month index `year * 12 + month`;
* pandas `groupby(...).sum()` sorts group keys ascending, modelled by an
  insertion sort over `(category, month)` keys; `unique()` is modelled by
  `List.dedup` (the spec leaves row order unspecified, and only
  membership and length of the deduplicated lists are ever used);
* rendered narrative strings built by f-string templates are modelled by
  records carrying the data interpolated into the fixed template.
-/

namespace DelayedGrat

/-- A calendar date, the `date` column of the transaction DataFrame. -/
structure Date where
  year : Int
  month : Int
  day : Int
deriving DecidableEq

/-- `df['date'].dt.to_period('M')`: truncation of a date to its year-month
period, as a month index that orders and equates periods correctly. -/
def Date.toPeriodM (d : Date) : Int := d.year * 12 + d.month

/-- One row of the transaction DataFrame: `date`, `category`, `amount`.
Negative `amount` is an expense, positive is income. -/
structure Transaction where
  date : Date
  category : String
  amount : ℚ
deriving DecidableEq

/-- The fixed discretionary vocabulary `DISCRETIONARY_CATEGORIES`.
The Python source stores it as a set; only membership and existential
scans over it are ever performed, so a list is an exact model. -/
def DISCRETIONARY_CATEGORIES : List String :=
  ["eating out", "entertainment", "shopping", "coffee", "movies", "dining",
   "restaurants", "subscriptions", "gaming", "hobbies", "travel", "vacation",
   "streaming", "online shopping", "clothes", "fashion", "alcohol", "drinks",
   "social", "hangout", "leisure", "recreation", "games", "books", "music"]

/-- The fixed essential vocabulary `ESSENTIAL_CATEGORIES`. -/
def ESSENTIAL_CATEGORIES : List String :=
  ["rent", "utilities", "groceries", "food", "transportation", "gas",
   "insurance", "phone", "internet", "salary", "income", "wages",
   "scholarship", "allowance", "part-time job", "work", "healthcare",
   "medication", "fitness", "gym", "tuition", "education", "school"]

/-- Python's `str.lower()`: lower-case every character. -/
def pyLower (s : String) : String := String.mk (s.data.map Char.toLower)

/-- The whitespace characters removed by Python's `str.strip()`. -/
def pyIsSpace (c : Char) : Bool :=
  c == ' ' || c == '\t' || c == '\n' || c == '\r' || c == '\x0b' || c == '\x0c'

/-- Python's `str.strip()`: drop leading and trailing whitespace. -/
def pyStrip (s : String) : String :=
  String.mk (((s.data.dropWhile pyIsSpace).reverse.dropWhile pyIsSpace).reverse)

/-- The character list `p` begins the character list `s` (helper for
Python substring containment). -/
def beginsWith : List Char → List Char → Bool
  | [], _ => true
  | _ :: _, [] => false
  | p :: ps, c :: cs => p == c && beginsWith ps cs

/-- Python's `pat in s` on strings, over character lists: `pat` occurs as a
contiguous run inside `s` (the empty pattern occurs in every string). -/
def containsSub : List Char → List Char → Bool
  | pat, [] => pat.isEmpty
  | pat, s :: rest => beginsWith pat (s :: rest) || containsSub pat rest

/-- Python's `pat in s` substring test lifted to `String`. -/
def strContains (s pat : String) : Bool := containsSub pat.data s.data

/-- `classify_category`: classify a category label as `"discretionary"`,
`"essential"` or `"unknown"`.  Exact membership in the two vocabularies is
tried first (discretionary, then essential); failing that, bidirectional
substring containment is tried against every discretionary entry and then
every essential entry. -/
def classify_category (category_name : String) : String :=
  let category_lower := pyStrip (pyLower category_name)
  if DISCRETIONARY_CATEGORIES.contains category_lower then "discretionary"
  else if ESSENTIAL_CATEGORIES.contains category_lower then "essential"
  else if DISCRETIONARY_CATEGORIES.any
      (fun disc_cat => strContains category_lower disc_cat || strContains disc_cat category_lower) then
    "discretionary"
  else if ESSENTIAL_CATEGORIES.any
      (fun ess_cat => strContains category_lower ess_cat || strContains ess_cat category_lower) then
    "essential"
  else "unknown"

/-- `expenses_df`: keep only rows with `amount < 0` and flip the sign so
spend is a positive magnitude (lines 96-97 of the source). -/
def expenseRows (df : List Transaction) : List Transaction :=
  (df.filter (fun t => decide (t.amount < 0))).map
    (fun t => { t with amount := -t.amount })

/-- The distinct `(category, month)` group keys occurring among the
expense rows, in pandas `groupby` fashion (one key per nonempty group). -/
def groupKeys (expenses : List Transaction) : List (String × Int) :=
  ((expenses.map (fun t => (t.category, t.date.toPeriodM)))).dedup

/-- Lexicographic strict order on character lists (string ordering used
to sort pandas group keys; it only fixes the row order, which the spec
leaves unspecified). -/
def charListLt : List Char → List Char → Bool
  | [], [] => false
  | [], _ :: _ => true
  | _ :: _, [] => false
  | a :: as, b :: bs => decide (a < b) || (a == b && charListLt as bs)

/-- Ordering used by pandas `groupby` on the `(category, month)` key. -/
def keyLe (p q : String × Int) : Bool :=
  charListLt p.1.data q.1.data || (p.1 == q.1 && decide (p.2 ≤ q.2))

/-- Insertion step of the key sort. -/
def insertKey (p : String × Int) : List (String × Int) → List (String × Int)
  | [] => [p]
  | q :: rest => if keyLe p q then p :: q :: rest else q :: insertKey p rest

/-- Insertion sort of group keys (pandas sorts group keys ascending). -/
def sortKeys : List (String × Int) → List (String × Int)
  | [] => []
  | p :: rest => insertKey p (sortKeys rest)

/-- One row of `category_monthly`: total spend of one category in one
month (sum of absolute values of its negative-amount transactions). -/
structure CategoryMonthSpend where
  category : String
  month : Int
  amount : ℚ
deriving DecidableEq

/-- The aggregated row of one `(category, month)` group: the sum of the
(sign-flipped) expense amounts belonging to that key. -/
def groupRow (expenses : List Transaction) (k : String × Int) :
    CategoryMonthSpend :=
  { category := k.1, month := k.2,
    amount := ((expenses.filter
        (fun t => decide (t.category = k.1) && decide (t.date.toPeriodM = k.2))).map
      (fun t => t.amount)).sum }

/-- `category_monthly = expenses_df.groupby(['category','month'])['amount'].sum()`
(line 103): one record per `(category, month)` key, carrying the sum of
the (sign-flipped) expense amounts of that group, keys sorted. -/
def categoryMonthly (expenses : List Transaction) : List CategoryMonthSpend :=
  (sortKeys (groupKeys expenses)).map (groupRow expenses)

/-- `category_monthly['month'].unique()` (line 106; the source also sorts
it, but only its length is ever inspected). -/
def monthsOf (cm : List CategoryMonthSpend) : List Int :=
  (cm.map (fun r => r.month)).dedup

/-- `category_monthly['category'].unique()` (line 115). -/
def categoriesOf (cm : List CategoryMonthSpend) : List String :=
  (cm.map (fun r => r.category)).dedup

/-- One row of the trends DataFrame built at lines 140-150. -/
structure CategoryTrend where
  category : String
  previous_month : Int
  current_month : Int
  previous_month_spend : ℚ
  current_month_spend : ℚ
  absolute_change : ℚ
  percentage_change : ℚ
  trend_direction : String
  classification : String
deriving DecidableEq

/-- Column names of the trends DataFrame, exactly the dict keys of
lines 140-150 of the source. -/
def categoryTrendColumns : List String :=
  ["category", "previous_month", "current_month", "previous_month_spend",
   "current_month_spend", "absolute_change", "percentage_change",
   "trend_direction", "classification"]

/-- Insertion step of the per-category month sort. -/
def insertByMonth (r : CategoryMonthSpend) :
    List CategoryMonthSpend → List CategoryMonthSpend
  | [] => [r]
  | x :: rest =>
    if decide (r.month ≤ x.month) then r :: x :: rest
    else x :: insertByMonth r rest

/-- `category_data.sort_values('month')` (line 116): sort one category's
monthly records chronologically. -/
def sortByMonth : List CategoryMonthSpend → List CategoryMonthSpend
  | [] => []
  | x :: rest => insertByMonth x (sortByMonth rest)

/-- The trend row built at lines 121-150 from a category's previous and
current monthly rows: the changes, the direction by strict sign
comparison, the division-guarded percentage, and the classification. -/
def mkTrend (category : String) (prev curr : CategoryMonthSpend) :
    CategoryTrend :=
  { category := category,
    previous_month := prev.month,
    current_month := curr.month,
    previous_month_spend := prev.amount,
    current_month_spend := curr.amount,
    absolute_change := curr.amount - prev.amount,
    percentage_change :=
      if prev.amount > 0 then (curr.amount - prev.amount) / prev.amount * 100
      else 0,
    trend_direction :=
      if curr.amount - prev.amount > 0 then "increase"
      else if curr.amount - prev.amount < 0 then "decrease"
      else "stable",
    classification := classify_category category }

/-- Body of the per-category loop (lines 115-150): sort the category's
monthly records, and if there are at least two, build the trend row from
the last two (`iloc[-2]`, `iloc[-1]`); otherwise produce nothing. -/
def trendFor (cm : List CategoryMonthSpend) (category : String) :
    Option CategoryTrend :=
  match (sortByMonth (cm.filter (fun r => decide (r.category = category)))).reverse with
  | curr :: prev :: _ => some (mkTrend category prev curr)
  | _ => none

/-- `get_category_spending_trends` (lines 72-152): month-over-month
spending trend per category with at least two months of expense data,
empty when there are no expenses or fewer than two distinct months. -/
def get_category_spending_trends (df : List Transaction) : List CategoryTrend :=
  let expenses := expenseRows df
  if expenses.isEmpty then []
  else
    let cm := categoryMonthly expenses
    if (monthsOf cm).length < 2 then []
    else (categoriesOf cm).filterMap (trendFor cm)

/-- `MINIMUM_REDUCTION_THRESHOLD = 20` dollars. -/
def MINIMUM_REDUCTION_THRESHOLD : ℚ := 20

/-- `MINIMUM_REDUCTION_PERCENT = 10` percent. -/
def MINIMUM_REDUCTION_PERCENT : ℚ := 10

/-- Data interpolated into the fixed narrative template of lines 198-199:
"You chose not to spend $`saved_amount` on `category` this month. This
reflects a `percent_reduction`% reduction compared to last month." -/
structure Insight where
  saved_amount : ℚ
  category : String
  percent_reduction : ℚ
deriving DecidableEq

/-- One row of the detector's output DataFrame (columns selected at
lines 203-204 of the source). -/
structure GratificationEvent where
  category : String
  previous_month_spend : ℚ
  current_month_spend : ℚ
  saved_amount : ℚ
  percentage_change : ℚ
  insight : Insight
deriving DecidableEq

/-- Column names of the detector's output, exactly the projection list of
lines 203-204 of the source. -/
def gratificationEventColumns : List String :=
  ["category", "previous_month_spend", "current_month_spend",
   "saved_amount", "percentage_change", "insight"]

/-- The row the detector derives from a qualifying trend: the selected
trend columns plus `saved_amount = -absolute_change` (line 194) and the
narrative data (lines 197-201). -/
def gratificationEventOf (t : CategoryTrend) : GratificationEvent :=
  { category := t.category,
    previous_month_spend := t.previous_month_spend,
    current_month_spend := t.current_month_spend,
    saved_amount := -t.absolute_change,
    percentage_change := t.percentage_change,
    insight := { saved_amount := -t.absolute_change,
                 category := t.category,
                 percent_reduction := |t.percentage_change| } }

/-- `detect_delayed_gratification` (lines 155-204): keep the discretionary
decreasing trends, keep those meeting the absolute-dollar or percentage
threshold, and augment each with `saved_amount` and the narrative. -/
def detect_delayed_gratification (df : List CategoryTrend) :
    List GratificationEvent :=
  let delayed_grat := df.filter (fun t =>
    decide (t.classification = "discretionary") &&
    decide (t.trend_direction = "decrease"))
  let delayed_grat := delayed_grat.filter (fun t =>
    decide (|t.absolute_change| ≥ MINIMUM_REDUCTION_THRESHOLD) ||
    decide (|t.percentage_change| ≥ MINIMUM_REDUCTION_PERCENT))
  delayed_grat.map gratificationEventOf

/-- One element of the list built by `project_future_value`. -/
structure Projection where
  months : ℕ
  future_value : ℚ
deriving DecidableEq

/-- `project_future_value` (lines 207-227): linear projection
`future_value = saved_amount * months` for each horizon, in order. -/
def project_future_value (saved_amount : ℚ)
    (horizons : List ℕ := [6, 24, 60]) : List Projection :=
  match horizons with
  | [] => []
  | months :: rest =>
    { months := months, future_value := saved_amount * months } ::
      project_future_value saved_amount rest

/-- `REWARD_MAPPING` (lines 29-38): reward tiers in descending threshold
order, ending in the zero-threshold catch-all. -/
def REWARD_MAPPING : List (ℚ × String) :=
  [(3000, "🎯 3 months of rent or a new Mac Pro!"),
   (1500, "✈️ A July flight to LAX"),
   (800, "🥋 One year sports fees"),
   (500, "📚 Course materials & textbooks for semester"),
   (300, "🎧 Apple Airpods Pro"),
   (150, "🍱 Weekly meals out for a month"),
   (75, "👚 Wardrobe upgrade"),
   (0, "💪 Every $1 counts toward your future")]

/-- The `for threshold, description in REWARD_MAPPING` loop of
lines 240-242: first description whose threshold the value reaches. -/
def firstReward (future_value : ℚ) : List (ℚ × String) → Option String
  | [] => none
  | (threshold, description) :: rest =>
    if future_value ≥ threshold then some description
    else firstReward future_value rest

/-- `map_to_reward` (lines 230-244): scan `REWARD_MAPPING` in order and
return the first description whose threshold is reached; if none is
(unreachable for non-negative values), fall back to the last entry. -/
def map_to_reward (future_value : ℚ) : String :=
  match firstReward future_value REWARD_MAPPING with
  | some description => description
  | none => (REWARD_MAPPING.getLastD (0, "")).2

/-- The composer's `summary` message (lines 264-343), modelled by the data
interpolated into the three fixed templates: the two degenerate fallback
texts, or the total-saved report with its optional spending-reduction
percentage line. -/
inductive SummaryMsg where
  | insufficientHistory
  | noReduction
  | report (total_saved : ℚ) (savings_rate_impact : Option ℚ)
deriving DecidableEq

/-- One formatted block of `detailed_insights` (lines 297-325): the
event's narrative, the per-horizon projected values, and the top
(shortest-horizon) reward description. -/
structure InsightBlock where
  category : String
  insight : Insight
  projections : List Projection
  top_reward : String
deriving DecidableEq

/-- The block built for one detected event in the loop of lines 287-325. -/
def insightBlockFor (row : GratificationEvent) : InsightBlock :=
  let projections := project_future_value row.saved_amount
  { category := row.category,
    insight := row.insight,
    projections := projections,
    top_reward :=
      map_to_reward ((projections.headD
        { months := 0, future_value := 0 }).future_value) }

/-- The dict returned by `generate_delayed_gratification_insights`. -/
structure InsightsResult where
  trends : List CategoryTrend
  delayed_gratification : List GratificationEvent
  detailed_insights : List InsightBlock
  summary : SummaryMsg
deriving DecidableEq

/-- `generate_delayed_gratification_insights` (lines 247-350): run the
pipeline, fall back to fixed messages when no trend or no event exists,
and otherwise report the detected events, their insight blocks, the total
saved amount and (when total expenses are positive) its percentage of
total expenses. -/
def generate_delayed_gratification_insights (df : List Transaction) :
    InsightsResult :=
  let trends := get_category_spending_trends df
  if trends.isEmpty then
    { trends := [], delayed_gratification := [], detailed_insights := [],
      summary := SummaryMsg.insufficientHistory }
  else
    let delayed_grat := detect_delayed_gratification trends
    if delayed_grat.isEmpty then
      { trends := trends, delayed_gratification := [],
        detailed_insights := [], summary := SummaryMsg.noReduction }
    else
      let detailed_insights := delayed_grat.map insightBlockFor
      let total_saved :=
        delayed_grat.foldl (fun acc row => acc + row.saved_amount) 0
      let total_expenses :=
        -(((df.filter (fun t => decide (t.amount < 0))).map
            (fun t => t.amount)).sum)
      { trends := trends, delayed_gratification := delayed_grat,
        detailed_insights := detailed_insights,
        summary :=
          if total_expenses > 0 then
            SummaryMsg.report total_saved
              (some (total_saved / total_expenses * 100))
          else SummaryMsg.report total_saved none }

/-! ### Permutation and sortedness facts about the two insertion sorts -/

lemma insertKey_perm (p : String × Int) (l : List (String × Int)) :
    (insertKey p l).Perm (p :: l) := by
  induction l with
  | nil => simp [insertKey]
  | cons q rest ih =>
    rw [insertKey]
    split
    · exact List.Perm.refl _
    · exact (ih.cons q).trans (List.Perm.swap p q rest)

lemma sortKeys_perm (l : List (String × Int)) : (sortKeys l).Perm l := by
  induction l with
  | nil => simp [sortKeys]
  | cons p rest ih => exact (insertKey_perm p (sortKeys rest)).trans (ih.cons p)

lemma mem_sortKeys {k : String × Int} {l : List (String × Int)} :
    k ∈ sortKeys l ↔ k ∈ l := (sortKeys_perm l).mem_iff

lemma insertByMonth_perm (r : CategoryMonthSpend) (l : List CategoryMonthSpend) :
    (insertByMonth r l).Perm (r :: l) := by
  induction l with
  | nil => simp [insertByMonth]
  | cons x rest ih =>
    rw [insertByMonth]
    split
    · exact List.Perm.refl _
    · exact (ih.cons x).trans (List.Perm.swap r x rest)

lemma sortByMonth_perm (l : List CategoryMonthSpend) :
    (sortByMonth l).Perm l := by
  induction l with
  | nil => simp [sortByMonth]
  | cons x rest ih =>
    exact (insertByMonth_perm x (sortByMonth rest)).trans (ih.cons x)

lemma mem_sortByMonth {r : CategoryMonthSpend} {l : List CategoryMonthSpend} :
    r ∈ sortByMonth l ↔ r ∈ l := (sortByMonth_perm l).mem_iff

lemma insertByMonth_pairwise {r : CategoryMonthSpend}
    {l : List CategoryMonthSpend}
    (h : l.Pairwise (fun a b => a.month ≤ b.month)) :
    (insertByMonth r l).Pairwise (fun a b => a.month ≤ b.month) := by
  induction l with
  | nil => simp [insertByMonth]
  | cons x rest ih =>
    rw [insertByMonth]
    rcases List.pairwise_cons.mp h with ⟨hx, hrest⟩
    split
    · rename_i hle
      refine List.pairwise_cons.mpr ⟨?_, h⟩
      intro y hy
      rcases List.mem_cons.mp hy with rfl | hy
      · exact of_decide_eq_true hle
      · exact le_trans (of_decide_eq_true hle) (hx y hy)
    · rename_i hgt
      refine List.pairwise_cons.mpr ⟨?_, ih hrest⟩
      intro y hy
      rcases List.mem_cons.mp
          ((insertByMonth_perm r rest).mem_iff.mp hy) with rfl | hy
      · exact le_of_lt (lt_of_not_le fun hle => hgt (decide_eq_true hle))
      · exact hx y hy

lemma sortByMonth_pairwise (l : List CategoryMonthSpend) :
    (sortByMonth l).Pairwise (fun a b => a.month ≤ b.month) := by
  induction l with
  | nil => simp [sortByMonth]
  | cons x rest ih => exact insertByMonth_pairwise ih

/-! ### Membership characterizations of the grouping pipeline -/

lemma mem_expenseRows {df : List Transaction} {e : Transaction} :
    e ∈ expenseRows df ↔
      ∃ t ∈ df, t.amount < 0 ∧
        e = { date := t.date, category := t.category, amount := -t.amount } := by
  simp only [expenseRows, List.mem_map, List.mem_filter, decide_eq_true_eq]
  constructor
  · rintro ⟨t, ⟨htdf, hneg⟩, rfl⟩
    exact ⟨t, htdf, hneg, rfl⟩
  · rintro ⟨t, htdf, hneg, rfl⟩
    exact ⟨t, ⟨htdf, hneg⟩, rfl⟩

lemma expenseRows_pos {df : List Transaction} {e : Transaction}
    (he : e ∈ expenseRows df) : 0 < e.amount := by
  rcases mem_expenseRows.mp he with ⟨t, -, hneg, rfl⟩
  simpa using hneg

lemma mem_groupKeys {expenses : List Transaction} {k : String × Int} :
    k ∈ groupKeys expenses ↔
      ∃ e ∈ expenses, e.category = k.1 ∧ e.date.toPeriodM = k.2 := by
  simp only [groupKeys, List.mem_dedup, List.mem_map]
  constructor
  · rintro ⟨e, he, rfl⟩
    exact ⟨e, he, rfl, rfl⟩
  · rintro ⟨e, he, h1, h2⟩
    exact ⟨e, he, by rw [h1, h2]⟩

lemma mem_categoryMonthly {expenses : List Transaction}
    {r : CategoryMonthSpend} :
    r ∈ categoryMonthly expenses ↔
      ∃ k ∈ groupKeys expenses, r = groupRow expenses k := by
  simp only [categoryMonthly, List.mem_map, mem_sortKeys]
  constructor
  · rintro ⟨k, hk, rfl⟩
    exact ⟨k, hk, rfl⟩
  · rintro ⟨k, hk, rfl⟩
    exact ⟨k, hk, rfl⟩

@[simp] lemma groupRow_category (expenses : List Transaction)
    (k : String × Int) : (groupRow expenses k).category = k.1 := rfl

@[simp] lemma groupRow_month (expenses : List Transaction)
    (k : String × Int) : (groupRow expenses k).month = k.2 := rfl

lemma groupRow_amount_pos {expenses : List Transaction} {k : String × Int}
    (hpos : ∀ e ∈ expenses, 0 < e.amount) (hk : k ∈ groupKeys expenses) :
    0 < (groupRow expenses k).amount := by
  rcases mem_groupKeys.mp hk with ⟨e, he, hcat, hmon⟩
  have hmem : e ∈ expenses.filter
      (fun t => decide (t.category = k.1) && decide (t.date.toPeriodM = k.2)) := by
    refine List.mem_filter.mpr ⟨he, ?_⟩
    simp [hcat, hmon]
  apply List.sum_pos
  · intro x hx
    rcases List.mem_map.mp hx with ⟨t, ht, rfl⟩
    exact hpos t (List.mem_filter.mp ht).1
  · intro hnil
    rw [List.map_eq_nil_iff] at hnil
    rw [hnil] at hmem
    exact absurd hmem (List.not_mem_nil e)

lemma categoryMonthly_amount_pos {df : List Transaction}
    {r : CategoryMonthSpend} (hr : r ∈ categoryMonthly (expenseRows df)) :
    0 < r.amount := by
  rcases mem_categoryMonthly.mp hr with ⟨k, hk, rfl⟩
  exact groupRow_amount_pos (fun e he => expenseRows_pos he) hk

lemma categoryMonthly_pairs_nodup (expenses : List Transaction) :
    ((categoryMonthly expenses).map
      (fun r => (r.category, r.month))).Nodup := by
  have hmap : ((categoryMonthly expenses).map
      (fun r => (r.category, r.month))) = sortKeys (groupKeys expenses) := by
    rw [categoryMonthly, List.map_map]
    have hcomp : ((fun r : CategoryMonthSpend => (r.category, r.month)) ∘
        groupRow expenses) = id := funext fun k => rfl
    rw [hcomp, List.map_id]
  rw [hmap]
  exact ((sortKeys_perm (groupKeys expenses)).nodup_iff).mpr
    (List.nodup_dedup _)

lemma mem_monthsOf {expenses : List Transaction} {m : Int} :
    m ∈ monthsOf (categoryMonthly expenses) ↔
      ∃ e ∈ expenses, e.date.toPeriodM = m := by
  simp only [monthsOf, List.mem_dedup, List.mem_map]
  constructor
  · rintro ⟨r, hr, rfl⟩
    rcases mem_categoryMonthly.mp hr with ⟨k, hk, rfl⟩
    rcases mem_groupKeys.mp hk with ⟨e, he, -, hmon⟩
    exact ⟨e, he, hmon⟩
  · rintro ⟨e, he, rfl⟩
    refine ⟨groupRow expenses (e.category, e.date.toPeriodM), ?_, rfl⟩
    exact mem_categoryMonthly.mpr
      ⟨(e.category, e.date.toPeriodM),
        mem_groupKeys.mpr ⟨e, he, rfl, rfl⟩, rfl⟩

lemma mem_categoriesOf {expenses : List Transaction} {c : String} :
    c ∈ categoriesOf (categoryMonthly expenses) ↔
      ∃ e ∈ expenses, e.category = c := by
  simp only [categoriesOf, List.mem_dedup, List.mem_map]
  constructor
  · rintro ⟨r, hr, rfl⟩
    rcases mem_categoryMonthly.mp hr with ⟨k, hk, rfl⟩
    rcases mem_groupKeys.mp hk with ⟨e, he, hcat, -⟩
    exact ⟨e, he, hcat⟩
  · rintro ⟨e, he, rfl⟩
    refine ⟨groupRow expenses (e.category, e.date.toPeriodM), ?_, rfl⟩
    exact mem_categoryMonthly.mpr
      ⟨(e.category, e.date.toPeriodM),
        mem_groupKeys.mpr ⟨e, he, rfl, rfl⟩, rfl⟩

/-! ### Inverting the trend extractor -/

@[simp] lemma mkTrend_category (c : String) (prev curr : CategoryMonthSpend) :
    (mkTrend c prev curr).category = c := rfl

@[simp] lemma mkTrend_previous_month (c : String)
    (prev curr : CategoryMonthSpend) :
    (mkTrend c prev curr).previous_month = prev.month := rfl

@[simp] lemma mkTrend_current_month (c : String)
    (prev curr : CategoryMonthSpend) :
    (mkTrend c prev curr).current_month = curr.month := rfl

@[simp] lemma mkTrend_previous_month_spend (c : String)
    (prev curr : CategoryMonthSpend) :
    (mkTrend c prev curr).previous_month_spend = prev.amount := rfl

@[simp] lemma mkTrend_current_month_spend (c : String)
    (prev curr : CategoryMonthSpend) :
    (mkTrend c prev curr).current_month_spend = curr.amount := rfl

@[simp] lemma mkTrend_absolute_change (c : String)
    (prev curr : CategoryMonthSpend) :
    (mkTrend c prev curr).absolute_change = curr.amount - prev.amount := rfl

@[simp] lemma mkTrend_classification (c : String)
    (prev curr : CategoryMonthSpend) :
    (mkTrend c prev curr).classification = classify_category c := rfl

lemma mkTrend_percentage_change (c : String)
    (prev curr : CategoryMonthSpend) :
    (mkTrend c prev curr).percentage_change =
      if prev.amount > 0 then (curr.amount - prev.amount) / prev.amount * 100
      else 0 := rfl

lemma mkTrend_direction_decrease_iff (c : String)
    (prev curr : CategoryMonthSpend) :
    (mkTrend c prev curr).trend_direction = "decrease" ↔
      curr.amount - prev.amount < 0 := by
  show (if curr.amount - prev.amount > 0 then "increase"
      else if curr.amount - prev.amount < 0 then "decrease"
      else "stable") = "decrease" ↔ curr.amount - prev.amount < 0
  rcases lt_trichotomy (curr.amount - prev.amount) 0 with h | h | h
  · rw [if_neg (by linarith), if_pos h]
    simp [h]
  · rw [if_neg (by linarith), if_neg (by linarith)]
    constructor
    · intro hs; exact absurd hs (by decide)
    · intro h'; exact absurd h' (by linarith)
  · rw [if_pos h]
    constructor
    · intro hs; exact absurd hs (by decide)
    · intro h'; exact absurd h' (by linarith)

lemma trendFor_some_inv {cm : List CategoryMonthSpend} {c : String}
    {t : CategoryTrend} (h : trendFor cm c = some t) :
    ∃ curr prev rest,
      (sortByMonth (cm.filter
        (fun r => decide (r.category = c)))).reverse = curr :: prev :: rest ∧
      t = mkTrend c prev curr := by
  rw [trendFor] at h
  rcases hrev : (sortByMonth (cm.filter
      (fun r => decide (r.category = c)))).reverse with _ | ⟨curr, _ | ⟨prev, rest⟩⟩
  · rw [hrev] at h; exact absurd h (by simp)
  · rw [hrev] at h; exact absurd h (by simp)
  · rw [hrev] at h
    simp only [Option.some.injEq] at h
    exact ⟨curr, prev, rest, rfl, h.symm⟩

lemma trendFor_eq_some_of_rev {cm : List CategoryMonthSpend} {c : String}
    {curr prev : CategoryMonthSpend} {rest : List CategoryMonthSpend}
    (hrev : (sortByMonth (cm.filter
      (fun r => decide (r.category = c)))).reverse = curr :: prev :: rest) :
    trendFor cm c = some (mkTrend c prev curr) := by
  rw [trendFor, hrev]

lemma mem_trends_iff {df : List Transaction} {t : CategoryTrend} :
    t ∈ get_category_spending_trends df ↔
      ((expenseRows df).isEmpty = false ∧
       2 ≤ (monthsOf (categoryMonthly (expenseRows df))).length ∧
       ∃ c ∈ categoriesOf (categoryMonthly (expenseRows df)),
         trendFor (categoryMonthly (expenseRows df)) c = some t) := by
  simp only [get_category_spending_trends]
  split_ifs with h1 h2
  · simp [h1]
  · have : ¬(2 ≤ (monthsOf (categoryMonthly (expenseRows df))).length) :=
      Nat.not_le.mpr h2
    simp [this]
  · have hlen : 2 ≤ (monthsOf (categoryMonthly (expenseRows df))).length :=
      Nat.not_lt.mp h2
    have hne : (expenseRows df).isEmpty = false :=
      Bool.not_eq_true _ ▸ Bool.of_not_eq_true h1
    simp [List.mem_filterMap, hne, hlen]

/-- Master inversion: every extracted trend arises from a category of the
grouped table whose sorted monthly rows end in `prev`, `curr`. -/
lemma mem_trends_inv {df : List Transaction} {t : CategoryTrend}
    (ht : t ∈ get_category_spending_trends df) :
    ∃ c curr prev rest,
      c ∈ categoriesOf (categoryMonthly (expenseRows df)) ∧
      (sortByMonth ((categoryMonthly (expenseRows df)).filter
        (fun r => decide (r.category = c)))).reverse = curr :: prev :: rest ∧
      t = mkTrend c prev curr := by
  rcases (mem_trends_iff.mp ht) with ⟨-, -, c, hc, hsome⟩
  rcases trendFor_some_inv hsome with ⟨curr, prev, rest, hrev, ht'⟩
  exact ⟨c, curr, prev, rest, hc, hrev, ht'⟩

lemma rev_two_mem {l : List CategoryMonthSpend}
    {curr prev : CategoryMonthSpend} {rest : List CategoryMonthSpend}
    (hrev : (sortByMonth l).reverse = curr :: prev :: rest) :
    curr ∈ l ∧ prev ∈ l := by
  have h1 : curr ∈ (sortByMonth l).reverse := by
    rw [hrev]; exact List.mem_cons_self _ _
  have h2 : prev ∈ (sortByMonth l).reverse := by
    rw [hrev]; exact List.mem_cons_of_mem _ (List.mem_cons_self _ _)
  rw [List.mem_reverse] at h1 h2
  exact ⟨mem_sortByMonth.mp h1, mem_sortByMonth.mp h2⟩

/-- Invariants carried by every extracted trend: positive spends, the
change/percentage formulas, the direction/sign correspondence, and the
classification of its own category. -/
lemma trend_invariants {df : List Transaction} {t : CategoryTrend}
    (ht : t ∈ get_category_spending_trends df) :
    0 < t.previous_month_spend ∧ 0 < t.current_month_spend ∧
    t.absolute_change = t.current_month_spend - t.previous_month_spend ∧
    t.percentage_change = t.absolute_change / t.previous_month_spend * 100 ∧
    (t.trend_direction = "decrease" ↔ t.absolute_change < 0) ∧
    t.classification = classify_category t.category := by
  rcases mem_trends_inv ht with ⟨c, curr, prev, rest, hc, hrev, rfl⟩
  rcases rev_two_mem hrev with ⟨hcurrf, hprevf⟩
  have hprev : prev ∈ categoryMonthly (expenseRows df) :=
    (List.mem_filter.mp hprevf).1
  have hcurr : curr ∈ categoryMonthly (expenseRows df) :=
    (List.mem_filter.mp hcurrf).1
  have hppos := categoryMonthly_amount_pos hprev
  have hcpos := categoryMonthly_amount_pos hcurr
  refine ⟨by simpa using hppos, by simpa using hcpos, by simp, ?_, ?_, by simp⟩
  · rw [mkTrend_percentage_change, if_pos hppos, mkTrend_absolute_change,
      mkTrend_previous_month_spend]
  · rw [mkTrend_direction_decrease_iff, mkTrend_absolute_change]

lemma filterMap_trendFor_sublist (cm : List CategoryMonthSpend)
    (cats : List String) :
    ((cats.filterMap (trendFor cm)).map (fun t => t.category)).Sublist cats := by
  induction cats with
  | nil => simp
  | cons c rest ih =>
    rw [List.filterMap_cons]
    cases h : trendFor cm c with
    | none => exact ih.cons c
    | some t =>
      have hcat : t.category = c := by
        rcases trendFor_some_inv h with ⟨curr, prev, r, -, rfl⟩
        rfl
      rw [List.map_cons, hcat]
      exact ih.cons₂ c

lemma trends_nodup_categories (df : List Transaction) :
    ((get_category_spending_trends df).map (fun t => t.category)).Nodup := by
  simp only [get_category_spending_trends]
  split_ifs
  · simp
  · simp
  · exact (filterMap_trendFor_sublist _ _).nodup (List.nodup_dedup _)

lemma trends_category_inj {df : List Transaction} {t t' : CategoryTrend}
    (ht : t ∈ get_category_spending_trends df)
    (ht' : t' ∈ get_category_spending_trends df)
    (hcat : t.category = t'.category) : t = t' :=
  List.inj_on_of_nodup_map (trends_nodup_categories df) ht ht' hcat

/-- Within one category the grouped monthly rows carry pairwise distinct
months (group keys are distinct and share the category). -/
lemma sorted_filter_months_ne (df : List Transaction) (c : String) :
    (sortByMonth ((categoryMonthly (expenseRows df)).filter
      (fun r => decide (r.category = c)))).Pairwise
        (fun a b => a.month ≠ b.month) := by
  have hpairs : (categoryMonthly (expenseRows df)).Pairwise
      (fun a b => (a.category, a.month) ≠ (b.category, b.month)) := by
    have := categoryMonthly_pairs_nodup (expenseRows df)
    rw [List.Nodup, List.pairwise_map] at this
    exact this
  have hfilter := hpairs.filter (fun r => decide (r.category = c))
  have hmonths : (((categoryMonthly (expenseRows df)).filter
      (fun r => decide (r.category = c)))).Pairwise
        (fun a b => a.month ≠ b.month) := by
    refine hfilter.imp_of_mem ?_
    intro a b ha hb hne
    have ha' : a.category = c := by
      have := (List.mem_filter.mp ha).2
      simpa using this
    have hb' : b.category = c := by
      have := (List.mem_filter.mp hb).2
      simpa using this
    intro hmon
    exact hne (by rw [ha', hb', hmon])
  exact ((sortByMonth_perm _).pairwise_iff
    (fun {_ _} h => Ne.symm h)).mpr hmonths

/-- Every month in a category's sorted run is at most the last month, and
any month other than the last is at most the second-to-last. -/
lemma sorted_rev_top_two {l : List CategoryMonthSpend}
    {curr prev : CategoryMonthSpend} {rest : List CategoryMonthSpend}
    (hrev : (sortByMonth l).reverse = curr :: prev :: rest) :
    prev.month ≤ curr.month ∧
    ∀ r ∈ l, r = curr ∨ r.month ≤ prev.month := by
  have hdecomp : sortByMonth l = rest.reverse ++ [prev, curr] := by
    have := congrArg List.reverse hrev
    rw [List.reverse_reverse] at this
    rw [this]
    simp
  have hsorted := sortByMonth_pairwise l
  rw [hdecomp, List.pairwise_append] at hsorted
  rcases hsorted with ⟨-, hpair, hcross⟩
  have hpc : prev.month ≤ curr.month := by
    rcases List.pairwise_cons.mp hpair with ⟨hp, -⟩
    exact hp curr (List.mem_singleton.mpr rfl)
  refine ⟨hpc, ?_⟩
  intro r hr
  have hr' : r ∈ sortByMonth l := mem_sortByMonth.mpr hr
  rw [hdecomp] at hr'
  rcases List.mem_append.mp hr' with hrl | hrr
  · exact Or.inr (hcross r (by simpa using hrl) prev (List.mem_cons_self _ _))
  · rcases List.mem_cons.mp hrr with rfl | hrr
    · exact Or.inr le_rfl
    · rcases List.mem_singleton.mp hrr with rfl
      exact Or.inl rfl

/-! ### Claim-side descriptions of the months present in the data -/

/-- Stated from the claims: the distinct months in which the dataset has
any expense (negative-amount) transaction. -/
def expenseMonths (df : List Transaction) : List Int :=
  ((df.filter (fun t => decide (t.amount < 0))).map
    (fun t => t.date.toPeriodM)).dedup

/-- Stated from the claims: the distinct months in which one category has
expense activity. -/
def categoryExpenseMonths (df : List Transaction) (c : String) : List Int :=
  ((df.filter (fun t => decide (t.amount < 0) && decide (t.category = c))).map
    (fun t => t.date.toPeriodM)).dedup

lemma mem_expenseMonths {df : List Transaction} {m : Int} :
    m ∈ expenseMonths df ↔ ∃ t ∈ df, t.amount < 0 ∧ t.date.toPeriodM = m := by
  simp only [expenseMonths, List.mem_dedup, List.mem_map, List.mem_filter,
    decide_eq_true_eq]
  constructor
  · rintro ⟨t, ⟨htdf, hneg⟩, rfl⟩
    exact ⟨t, htdf, hneg, rfl⟩
  · rintro ⟨t, htdf, hneg, rfl⟩
    exact ⟨t, ⟨htdf, hneg⟩, rfl⟩

lemma mem_categoryExpenseMonths {df : List Transaction} {c : String}
    {m : Int} :
    m ∈ categoryExpenseMonths df c ↔
      ∃ t ∈ df, t.amount < 0 ∧ t.category = c ∧ t.date.toPeriodM = m := by
  simp only [categoryExpenseMonths, List.mem_dedup, List.mem_map,
    List.mem_filter, Bool.and_eq_true, decide_eq_true_eq]
  constructor
  · rintro ⟨t, ⟨htdf, hneg, hcat⟩, rfl⟩
    exact ⟨t, htdf, hneg, hcat, rfl⟩
  · rintro ⟨t, htdf, hneg, hcat, rfl⟩
    exact ⟨t, ⟨htdf, hneg, hcat⟩, rfl⟩

lemma mem_categoryExpenseMonths_key {df : List Transaction} {c : String}
    {m : Int} :
    m ∈ categoryExpenseMonths df c ↔ (c, m) ∈ groupKeys (expenseRows df) := by
  rw [mem_categoryExpenseMonths, mem_groupKeys]
  constructor
  · rintro ⟨t, htdf, hneg, hcat, hmon⟩
    refine ⟨{ date := t.date, category := t.category, amount := -t.amount },
      mem_expenseRows.mpr ⟨t, htdf, hneg, rfl⟩, hcat, hmon⟩
  · rintro ⟨e, he, hcat, hmon⟩
    rcases mem_expenseRows.mp he with ⟨t, htdf, hneg, rfl⟩
    exact ⟨t, htdf, hneg, hcat, hmon⟩

lemma mem_categoryExpenseMonths_row {df : List Transaction} {c : String}
    {m : Int} :
    m ∈ categoryExpenseMonths df c ↔
      ∃ r ∈ (categoryMonthly (expenseRows df)).filter
        (fun r => decide (r.category = c)), r.month = m := by
  rw [mem_categoryExpenseMonths_key]
  constructor
  · intro hk
    refine ⟨groupRow (expenseRows df) (c, m), ?_, rfl⟩
    refine List.mem_filter.mpr ⟨mem_categoryMonthly.mpr ⟨(c, m), hk, rfl⟩, ?_⟩
    simp
  · rintro ⟨r, hr, rfl⟩
    rcases List.mem_filter.mp hr with ⟨hrm, hrc⟩
    have hcat : r.category = c := by simpa using hrc
    rcases mem_categoryMonthly.mp hrm with ⟨k, hk, hreq⟩
    have h1 : k.1 = c := by rw [← hcat, hreq]; rfl
    have h2 : k.2 = r.month := by rw [hreq]; rfl
    have hkey : (c, r.month) = k := by
      rw [Prod.ext_iff]
      exact ⟨h1.symm, h2.symm⟩
    rw [hkey]
    exact hk

lemma expenseMonths_length_eq (df : List Transaction) :
    (expenseMonths df).length =
      (monthsOf (categoryMonthly (expenseRows df))).length := by
  have hperm : (expenseMonths df).Perm
      (monthsOf (categoryMonthly (expenseRows df))) := by
    refine (List.perm_ext_iff_of_nodup ?_ ?_).mpr ?_
    · exact List.nodup_dedup _
    · exact List.nodup_dedup _
    intro m
    rw [mem_expenseMonths, mem_monthsOf]
    constructor
    · rintro ⟨t, htdf, hneg, hmon⟩
      exact ⟨{ date := t.date, category := t.category, amount := -t.amount },
        mem_expenseRows.mpr ⟨t, htdf, hneg, rfl⟩, hmon⟩
    · rintro ⟨e, he, hmon⟩
      rcases mem_expenseRows.mp he with ⟨t, htdf, hneg, rfl⟩
      exact ⟨t, htdf, hneg, hmon⟩
  exact hperm.length_eq

/-! ### Small glue lemmas -/

lemma length_two_of_two_mem {α : Type} {l : List α} {a b : α}
    (ha : a ∈ l) (hb : b ∈ l) (hne : a ≠ b) : 2 ≤ l.length := by
  match l with
  | [] => exact absurd ha (List.not_mem_nil a)
  | [x] =>
    rcases List.mem_singleton.mp ha with rfl
    rcases List.mem_singleton.mp hb with rfl
    exact absurd rfl hne
  | x :: y :: rest => simp [Nat.succ_le_succ, Nat.le_add_left]

lemma foldl_add_saved (l : List GratificationEvent) :
    l.foldl (fun acc row => acc + row.saved_amount) 0 =
      (l.map (fun e => e.saved_amount)).sum := by
  have hgen : ∀ (l : List GratificationEvent) (a : ℚ),
      l.foldl (fun acc row => acc + row.saved_amount) a =
        a + (l.map (fun e => e.saved_amount)).sum := by
    intro l
    induction l with
    | nil => intro a; simp
    | cons e rest ih =>
      intro a
      simp only [List.foldl_cons, List.map_cons, List.sum_cons, ih]
      ring
  rw [hgen]
  ring

lemma sum_map_neg_q (l : List ℚ) : (l.map (fun q => -q)).sum = -l.sum := by
  induction l with
  | nil => simp
  | cons x rest ih => simp [ih]; ring

/-! ### The detector's filter, propositionally -/

/-- Stated from the claims: the detector's filter predicate — the trend is
discretionary, decreasing, and meets the absolute-dollar threshold or the
percentage threshold (both inclusive). -/
def qualifiesTrend (t : CategoryTrend) : Prop :=
  t.classification = "discretionary" ∧ t.trend_direction = "decrease" ∧
    (|t.absolute_change| ≥ MINIMUM_REDUCTION_THRESHOLD ∨
     |t.percentage_change| ≥ MINIMUM_REDUCTION_PERCENT)

instance (t : CategoryTrend) : Decidable (qualifiesTrend t) := by
  rw [qualifiesTrend]
  infer_instance

lemma mem_detect_iff {trends : List CategoryTrend} {e : GratificationEvent} :
    e ∈ detect_delayed_gratification trends ↔
      ∃ t ∈ trends, qualifiesTrend t ∧ e = gratificationEventOf t := by
  simp only [detect_delayed_gratification, List.mem_map, List.mem_filter,
    Bool.and_eq_true, Bool.or_eq_true, decide_eq_true_eq, qualifiesTrend]
  constructor
  · rintro ⟨t, ⟨⟨ht, hc, hd⟩, hth⟩, rfl⟩
    exact ⟨t, ht, ⟨hc, hd, hth⟩, rfl⟩
  · rintro ⟨t, ht, ⟨hc, hd, hth⟩, rfl⟩
    exact ⟨t, ⟨⟨ht, hc, hd⟩, hth⟩, rfl⟩

lemma detect_eq_filterMap (trends : List CategoryTrend) :
    detect_delayed_gratification trends =
      (trends.filter (fun t => decide (qualifiesTrend t))).map
        gratificationEventOf := by
  rw [detect_delayed_gratification, List.filter_filter]
  congr 1
  apply List.filter_congr
  intro t _
  rw [Bool.eq_iff_iff]
  simp only [Bool.and_eq_true, Bool.or_eq_true, decide_eq_true_eq,
    qualifiesTrend]
  tauto

lemma project_eq_map (saved : ℚ) (horizons : List ℕ) :
    project_future_value saved horizons =
      horizons.map (fun m => { months := m, future_value := saved * m }) := by
  induction horizons with
  | nil => rw [project_future_value]; rfl
  | cons m rest ih => rw [project_future_value, ih]; rfl

/-! ### A concrete run of the pipeline (the spec's worked example) -/

/-- The spec's worked example: "Eating Out" spends $150 in 2024-01 and
$40 in 2024-02. -/
def exampleTransactions : List Transaction :=
  [{ date := { year := 2024, month := 1, day := 5 },
     category := "Eating Out", amount := -150 },
   { date := { year := 2024, month := 2, day := 5 },
     category := "Eating Out", amount := -40 }]

/-- The trend the extractor produces for the worked example. -/
def exampleTrend : CategoryTrend :=
  { category := "Eating Out", previous_month := 24289,
    current_month := 24290, previous_month_spend := 150,
    current_month_spend := 40, absolute_change := -110,
    percentage_change := -220/3, trend_direction := "decrease",
    classification := "discretionary" }

/-- The event the detector produces for the worked example. -/
def exampleEvent : GratificationEvent :=
  { category := "Eating Out", previous_month_spend := 150,
    current_month_spend := 40, saved_amount := 110,
    percentage_change := -220/3,
    insight := { saved_amount := 110, category := "Eating Out",
                 percent_reduction := 220/3 } }

lemma example_trends :
    get_category_spending_trends exampleTransactions = [exampleTrend] := by
  have hclass : classify_category "Eating Out" = "discretionary" := by decide
  norm_num [get_category_spending_trends, expenseRows, exampleTransactions,
    categoryMonthly, groupKeys, groupRow, sortKeys, insertKey, keyLe,
    charListLt, Date.toPeriodM, List.dedup, List.pwFilter, monthsOf,
    categoriesOf, trendFor, mkTrend, sortByMonth, insertByMonth,
    exampleTrend, hclass, List.filterMap_cons, List.filter]

lemma example_mem_trends : exampleTrend ∈ get_category_spending_trends
    exampleTransactions := by
  rw [example_trends]
  exact List.mem_singleton.mpr rfl

lemma example_detect :
    detect_delayed_gratification [exampleTrend] = [exampleEvent] := by
  norm_num [detect_delayed_gratification, exampleTrend, exampleEvent,
    gratificationEventOf, MINIMUM_REDUCTION_THRESHOLD,
    MINIMUM_REDUCTION_PERCENT, List.filter, abs]

/-! ### Composer glue -/

/-- Stated from the claims: total expenses as the sum of absolute values
of all negative-amount transactions of the input. -/
def totalExpensesAbs (df : List Transaction) : ℚ :=
  ((df.filter (fun t => decide (t.amount < 0))).map (fun t => |t.amount|)).sum

/-- The claim-side absolute-value form agrees with the source's
`-(df[df['amount'] < 0]['amount'].sum())` (lines 335-336). -/
lemma totalExpensesAbs_eq (df : List Transaction) :
    totalExpensesAbs df =
      -(((df.filter (fun t => decide (t.amount < 0))).map
          (fun t => t.amount)).sum) := by
  rw [totalExpensesAbs]
  have habs : (df.filter (fun t => decide (t.amount < 0))).map
      (fun t => |t.amount|) =
    (df.filter (fun t => decide (t.amount < 0))).map (fun t => -t.amount) := by
    apply List.map_congr_left
    intro t ht
    have hneg : t.amount < 0 := by
      have := (List.mem_filter.mp ht).2
      simpa using this
    exact abs_of_neg hneg
  rw [habs]
  have hcomp : (df.filter (fun t => decide (t.amount < 0))).map
      (fun t => -t.amount) =
    ((df.filter (fun t => decide (t.amount < 0))).map
      (fun t => t.amount)).map (fun q => -q) := by
    rw [List.map_map]
    rfl
  rw [hcomp, sum_map_neg_q]

/-! ### Claim theorems -/

lemma rewardThresholds {q : ℚ × String} (hq : q ∈ REWARD_MAPPING) :
    q.1 = 3000 ∨ q.1 = 1500 ∨ q.1 = 800 ∨ q.1 = 500 ∨ q.1 = 300 ∨
    q.1 = 150 ∨ q.1 = 75 ∨ q.1 = 0 := by
  fin_cases hq <;> norm_num

/-- C3: `map_to_reward` scans the reward tiers in descending threshold
order and returns the description of the first (hence largest-threshold)
tier whose threshold is `≤ v`, with inclusive boundaries; `3000` maps to
the top tier, `0` to the zero-threshold catch-all, and every non-negative
input gets a non-empty description. -/
theorem map_to_reward_spec :
    (REWARD_MAPPING.map Prod.fst).Pairwise (fun a b => b < a) ∧
    (∀ v : ℚ, 0 ≤ v →
      ∃ p ∈ REWARD_MAPPING, map_to_reward v = p.2 ∧ p.1 ≤ v ∧ p.2 ≠ "" ∧
        ∀ q ∈ REWARD_MAPPING, q.1 ≤ v → q.1 ≤ p.1) ∧
    map_to_reward 3000 = "🎯 3 months of rent or a new Mac Pro!" ∧
    map_to_reward 0 = "💪 Every $1 counts toward your future" := by
  refine ⟨by norm_num [REWARD_MAPPING, List.pairwise_cons], ?_, ?_, ?_⟩
  · intro v hv
    rcases le_or_lt 3000 v with h1 | h1
    · refine ⟨(3000, "🎯 3 months of rent or a new Mac Pro!"),
        by simp [REWARD_MAPPING], ?_, h1, by decide, ?_⟩
      · have hfr : firstReward v REWARD_MAPPING =
            some "🎯 3 months of rent or a new Mac Pro!" := by
          simp only [REWARD_MAPPING, firstReward]
          rw [if_pos h1]
        rw [map_to_reward, hfr]
      · intro q hq _
        rcases rewardThresholds hq with h|h|h|h|h|h|h|h <;> rw [h] <;>
          dsimp only <;> linarith
    rcases le_or_lt 1500 v with h2 | h2
    · refine ⟨(1500, "✈️ A July flight to LAX"),
        by simp [REWARD_MAPPING], ?_, h2, by decide, ?_⟩
      · have hfr : firstReward v REWARD_MAPPING =
            some "✈️ A July flight to LAX" := by
          simp only [REWARD_MAPPING, firstReward]
          rw [if_neg (not_le.mpr h1), if_pos h2]
        rw [map_to_reward, hfr]
      · intro q hq hle
        rcases rewardThresholds hq with h|h|h|h|h|h|h|h <;> rw [h] at hle ⊢ <;>
          dsimp only <;> linarith
    rcases le_or_lt 800 v with h3 | h3
    · refine ⟨(800, "🥋 One year sports fees"),
        by simp [REWARD_MAPPING], ?_, h3, by decide, ?_⟩
      · have hfr : firstReward v REWARD_MAPPING =
            some "🥋 One year sports fees" := by
          simp only [REWARD_MAPPING, firstReward]
          rw [if_neg (not_le.mpr h1), if_neg (not_le.mpr h2), if_pos h3]
        rw [map_to_reward, hfr]
      · intro q hq hle
        rcases rewardThresholds hq with h|h|h|h|h|h|h|h <;> rw [h] at hle ⊢ <;>
          dsimp only <;> linarith
    rcases le_or_lt 500 v with h4 | h4
    · refine ⟨(500, "📚 Course materials & textbooks for semester"),
        by simp [REWARD_MAPPING], ?_, h4, by decide, ?_⟩
      · have hfr : firstReward v REWARD_MAPPING =
            some "📚 Course materials & textbooks for semester" := by
          simp only [REWARD_MAPPING, firstReward]
          rw [if_neg (not_le.mpr h1), if_neg (not_le.mpr h2),
            if_neg (not_le.mpr h3), if_pos h4]
        rw [map_to_reward, hfr]
      · intro q hq hle
        rcases rewardThresholds hq with h|h|h|h|h|h|h|h <;> rw [h] at hle ⊢ <;>
          dsimp only <;> linarith
    rcases le_or_lt 300 v with h5 | h5
    · refine ⟨(300, "🎧 Apple Airpods Pro"),
        by simp [REWARD_MAPPING], ?_, h5, by decide, ?_⟩
      · have hfr : firstReward v REWARD_MAPPING =
            some "🎧 Apple Airpods Pro" := by
          simp only [REWARD_MAPPING, firstReward]
          rw [if_neg (not_le.mpr h1), if_neg (not_le.mpr h2),
            if_neg (not_le.mpr h3), if_neg (not_le.mpr h4), if_pos h5]
        rw [map_to_reward, hfr]
      · intro q hq hle
        rcases rewardThresholds hq with h|h|h|h|h|h|h|h <;> rw [h] at hle ⊢ <;>
          dsimp only <;> linarith
    rcases le_or_lt 150 v with h6 | h6
    · refine ⟨(150, "🍱 Weekly meals out for a month"),
        by simp [REWARD_MAPPING], ?_, h6, by decide, ?_⟩
      · have hfr : firstReward v REWARD_MAPPING =
            some "🍱 Weekly meals out for a month" := by
          simp only [REWARD_MAPPING, firstReward]
          rw [if_neg (not_le.mpr h1), if_neg (not_le.mpr h2),
            if_neg (not_le.mpr h3), if_neg (not_le.mpr h4),
            if_neg (not_le.mpr h5), if_pos h6]
        rw [map_to_reward, hfr]
      · intro q hq hle
        rcases rewardThresholds hq with h|h|h|h|h|h|h|h <;> rw [h] at hle ⊢ <;>
          dsimp only <;> linarith
    rcases le_or_lt 75 v with h7 | h7
    · refine ⟨(75, "👚 Wardrobe upgrade"),
        by simp [REWARD_MAPPING], ?_, h7, by decide, ?_⟩
      · have hfr : firstReward v REWARD_MAPPING =
            some "👚 Wardrobe upgrade" := by
          simp only [REWARD_MAPPING, firstReward]
          rw [if_neg (not_le.mpr h1), if_neg (not_le.mpr h2),
            if_neg (not_le.mpr h3), if_neg (not_le.mpr h4),
            if_neg (not_le.mpr h5), if_neg (not_le.mpr h6), if_pos h7]
        rw [map_to_reward, hfr]
      · intro q hq hle
        rcases rewardThresholds hq with h|h|h|h|h|h|h|h <;> rw [h] at hle ⊢ <;>
          dsimp only <;> linarith
    · refine ⟨(0, "💪 Every $1 counts toward your future"),
        by simp [REWARD_MAPPING], ?_, hv, by decide, ?_⟩
      · have hfr : firstReward v REWARD_MAPPING =
            some "💪 Every $1 counts toward your future" := by
          simp only [REWARD_MAPPING, firstReward]
          rw [if_neg (not_le.mpr h1), if_neg (not_le.mpr h2),
            if_neg (not_le.mpr h3), if_neg (not_le.mpr h4),
            if_neg (not_le.mpr h5), if_neg (not_le.mpr h6),
            if_neg (not_le.mpr h7), if_pos hv]
        rw [map_to_reward, hfr]
      · intro q hq hle
        rcases rewardThresholds hq with h|h|h|h|h|h|h|h <;> rw [h] at hle ⊢ <;>
          dsimp only <;> linarith
  · norm_num [map_to_reward, firstReward, REWARD_MAPPING]
  · norm_num [map_to_reward, firstReward, REWARD_MAPPING]

/-- Witness for C3 at the concrete value 42. -/
theorem map_to_reward_spec_witness :
    (0 : ℚ) ≤ 42 ∧
    ∃ p ∈ REWARD_MAPPING, map_to_reward 42 = p.2 ∧ p.1 ≤ 42 ∧ p.2 ≠ "" ∧
      ∀ q ∈ REWARD_MAPPING, q.1 ≤ 42 → q.1 ≤ p.1 :=
  ⟨by norm_num, map_to_reward_spec.2.1 42 (by norm_num)⟩

/-- C4: `project_future_value` returns one projection per horizon, in
order, each a pure linear scaling `future_value = saved_amount * months`
(no compounding); with the default horizons `[6, 24, 60]` the
projections of `100` are exactly `600`, `2400`, `6000`. -/
theorem project_future_value_spec :
    (∀ (saved : ℚ) (horizons : List ℕ),
       project_future_value saved horizons =
         horizons.map (fun m =>
           { months := m, future_value := saved * m })) ∧
    (∀ saved : ℚ, project_future_value saved =
       [{ months := 6, future_value := saved * 6 },
        { months := 24, future_value := saved * 24 },
        { months := 60, future_value := saved * 60 }]) ∧
    project_future_value 100 =
      [{ months := 6, future_value := 600 },
       { months := 24, future_value := 2400 },
       { months := 60, future_value := 6000 }] := by
  refine ⟨project_eq_map, ?_, ?_⟩
  · intro saved
    rw [project_eq_map]
    norm_num
  · rw [project_eq_map]
    norm_num

/-- C5: `classify_category` is total with range
`{discretionary, essential, unknown}`; exact vocabulary matching decides
before any substring matching, and in the substring phase discretionary
entries are tried before essential ones; the three concrete labels
evaluate as the claim states. -/
theorem classify_category_spec :
    (∀ s : String, classify_category s = "discretionary" ∨
       classify_category s = "essential" ∨
       classify_category s = "unknown") ∧
    (∀ s : String, pyStrip (pyLower s) ∈ DISCRETIONARY_CATEGORIES →
       classify_category s = "discretionary") ∧
    (∀ s : String, pyStrip (pyLower s) ∉ DISCRETIONARY_CATEGORIES →
       pyStrip (pyLower s) ∈ ESSENTIAL_CATEGORIES →
       classify_category s = "essential") ∧
    (∀ s : String, pyStrip (pyLower s) ∉ DISCRETIONARY_CATEGORIES →
       pyStrip (pyLower s) ∉ ESSENTIAL_CATEGORIES →
       (∃ d ∈ DISCRETIONARY_CATEGORIES,
          strContains (pyStrip (pyLower s)) d = true ∨
          strContains d (pyStrip (pyLower s)) = true) →
       classify_category s = "discretionary") ∧
    classify_category "Rent" = "essential" ∧
    classify_category "entertainment" = "discretionary" ∧
    classify_category "xyz_made_up" = "unknown" := by
  refine ⟨?_, ?_, ?_, ?_, by decide, by decide, by decide⟩
  · intro s
    simp only [classify_category]
    split_ifs <;> simp
  · intro s h
    simp only [classify_category]
    rw [if_pos (List.elem_iff.mpr h)]
  · intro s h1 h2
    simp only [classify_category]
    rw [if_neg (fun hc => h1 (List.elem_iff.mp hc)),
      if_pos (List.elem_iff.mpr h2)]
  · rintro s h1 h2 ⟨d, hd, hsub⟩
    simp only [classify_category]
    rw [if_neg (fun hc => h1 (List.elem_iff.mp hc)),
      if_neg (fun hc => h2 (List.elem_iff.mp hc)),
      if_pos (List.any_eq_true.mpr ⟨d, hd, Bool.or_eq_true _ _ |>.mpr hsub⟩)]

/-- Witness for C5: a label that substring-matches both vocabularies
("movies" is discretionary, "gym" is essential) resolves to
discretionary. -/
theorem classify_category_spec_witness :
    (pyStrip (pyLower "movies gym") ∉ DISCRETIONARY_CATEGORIES ∧
     pyStrip (pyLower "movies gym") ∉ ESSENTIAL_CATEGORIES ∧
     (∃ d ∈ DISCRETIONARY_CATEGORIES,
        strContains (pyStrip (pyLower "movies gym")) d = true ∨
        strContains d (pyStrip (pyLower "movies gym")) = true)) ∧
    classify_category "movies gym" = "discretionary" :=
  ⟨⟨by decide, by decide, by decide⟩,
    classify_category_spec.2.2.2.1 "movies gym" (by decide) (by decide)
      (by decide)⟩

/-- C1: a trend extracted from the data yields a gratification event iff
it is discretionary, decreasing, and meets the inclusive `>= 20` dollar
or `>= 10` percent threshold; every produced event carries
`saved_amount = -absolute_change`, which is strictly positive. -/
theorem detect_qualifies_spec (df : List Transaction) (t : CategoryTrend)
    (ht : t ∈ get_category_spending_trends df) :
    (gratificationEventOf t ∈
        detect_delayed_gratification (get_category_spending_trends df) ↔
      (t.classification = "discretionary" ∧ t.trend_direction = "decrease" ∧
        (|t.absolute_change| ≥ 20 ∨ |t.percentage_change| ≥ 10))) ∧
    (∀ e ∈ detect_delayed_gratification (get_category_spending_trends df),
      ∃ t' ∈ get_category_spending_trends df,
        e = gratificationEventOf t' ∧ e.saved_amount = -t'.absolute_change ∧
        0 < e.saved_amount) := by
  have hthr : ∀ u : CategoryTrend, qualifiesTrend u ↔
      (u.classification = "discretionary" ∧ u.trend_direction = "decrease" ∧
        (|u.absolute_change| ≥ 20 ∨ |u.percentage_change| ≥ 10)) := by
    intro u
    rw [qualifiesTrend, MINIMUM_REDUCTION_THRESHOLD, MINIMUM_REDUCTION_PERCENT]
  constructor
  · constructor
    · intro hmem
      rcases mem_detect_iff.mp hmem with ⟨t', ht', hq, heq⟩
      have hcat : t.category = t'.category :=
        congrArg GratificationEvent.category heq
      have : t' = t := trends_category_inj ht' ht hcat.symm
      rw [this] at hq
      exact (hthr t).mp hq
    · intro hq
      exact mem_detect_iff.mpr ⟨t, ht, (hthr t).mpr hq, rfl⟩
  · intro e he
    rcases mem_detect_iff.mp he with ⟨t', ht', hq, rfl⟩
    refine ⟨t', ht', rfl, rfl, ?_⟩
    rcases trend_invariants ht' with ⟨-, -, -, -, hdir, -⟩
    have hneg : t'.absolute_change < 0 := hdir.mp hq.2.1
    show 0 < -t'.absolute_change
    linarith

/-- Witness for C1 at the worked example's trend. -/
theorem detect_qualifies_spec_witness :
    exampleTrend ∈ get_category_spending_trends exampleTransactions ∧
    (exampleTrend.classification = "discretionary" ∧
     exampleTrend.trend_direction = "decrease" ∧
     (|exampleTrend.absolute_change| ≥ 20 ∨
      |exampleTrend.percentage_change| ≥ 10)) ∧
    gratificationEventOf exampleTrend ∈
      detect_delayed_gratification
        (get_category_spending_trends exampleTransactions) :=
  have hq : exampleTrend.classification = "discretionary" ∧
      exampleTrend.trend_direction = "decrease" ∧
      (|exampleTrend.absolute_change| ≥ 20 ∨
       |exampleTrend.percentage_change| ≥ 10) :=
    ⟨rfl, rfl, Or.inl (by norm_num [exampleTrend])⟩
  ⟨example_mem_trends, hq,
    (detect_qualifies_spec exampleTransactions exampleTrend
      example_mem_trends).1.mpr hq⟩

/-- C7: for every extracted trend, `percentage_change` is `0` when
`previous_month_spend` is `0` (no division error can occur), and
otherwise equals `absolute_change / previous_month_spend * 100`. -/
theorem percentage_change_spec (df : List Transaction) (t : CategoryTrend)
    (ht : t ∈ get_category_spending_trends df) :
    (t.previous_month_spend = 0 → t.percentage_change = 0) ∧
    (t.previous_month_spend ≠ 0 →
      t.percentage_change =
        t.absolute_change / t.previous_month_spend * 100) := by
  rcases trend_invariants ht with ⟨hp, -, -, hpct, -, -⟩
  exact ⟨fun h0 => absurd h0 (ne_of_gt hp), fun _ => hpct⟩

/-- Witness for C7 at the worked example's trend. -/
theorem percentage_change_spec_witness :
    exampleTrend ∈ get_category_spending_trends exampleTransactions ∧
    exampleTrend.previous_month_spend ≠ 0 ∧
    exampleTrend.percentage_change =
      exampleTrend.absolute_change / exampleTrend.previous_month_spend
        * 100 :=
  have hne : exampleTrend.previous_month_spend ≠ 0 := by
    norm_num [exampleTrend]
  ⟨example_mem_trends, hne,
    (percentage_change_spec exampleTransactions exampleTrend
      example_mem_trends).2 hne⟩

/-- C10: every aggregated monthly total is strictly positive, so every
extracted trend has strictly positive previous and current spend, the
zero-previous-spend guard is unreachable, and `percentage_change` always
equals `absolute_change / previous_month_spend * 100` exactly. -/
theorem positive_spend_spec (df : List Transaction) (t : CategoryTrend)
    (ht : t ∈ get_category_spending_trends df) :
    (∀ r ∈ categoryMonthly (expenseRows df), 0 < r.amount) ∧
    0 < t.previous_month_spend ∧ 0 < t.current_month_spend ∧
    t.percentage_change =
      t.absolute_change / t.previous_month_spend * 100 := by
  rcases trend_invariants ht with ⟨hp, hc, -, hpct, -, -⟩
  exact ⟨fun r hr => categoryMonthly_amount_pos hr, hp, hc, hpct⟩

/-- Witness for C10 at the worked example's trend. -/
theorem positive_spend_spec_witness :
    exampleTrend ∈ get_category_spending_trends exampleTransactions ∧
    ((∀ r ∈ categoryMonthly (expenseRows exampleTransactions),
        0 < r.amount) ∧
      0 < exampleTrend.previous_month_spend ∧
      0 < exampleTrend.current_month_spend ∧
      exampleTrend.percentage_change =
        exampleTrend.absolute_change / exampleTrend.previous_month_spend
          * 100) :=
  ⟨example_mem_trends,
    positive_spend_spec exampleTransactions exampleTrend example_mem_trends⟩

/-- C9 counterexample: the detector's output columns (lines 203-204) do
not retain every trend column — `previous_month`, `current_month`,
`absolute_change`, `trend_direction` and `classification` are dropped. -/
theorem event_columns_counterexample :
    "previous_month" ∈ categoryTrendColumns ∧
    "previous_month" ∉ gratificationEventColumns ∧
    "absolute_change" ∈ categoryTrendColumns ∧
    "absolute_change" ∉ gratificationEventColumns ∧
    "trend_direction" ∈ categoryTrendColumns ∧
    "trend_direction" ∉ gratificationEventColumns ∧
    "classification" ∈ categoryTrendColumns ∧
    "classification" ∉ gratificationEventColumns ∧
    ¬(∀ col ∈ categoryTrendColumns, col ∈ gratificationEventColumns) := by
  decide

/-- C9 (amended): every event returned by the detector comes from a
qualifying trend of the input and retains that trend's `category`,
`previous_month_spend`, `current_month_spend` and `percentage_change`
unchanged, augmented with `saved_amount = -absolute_change` and the
narrative data; the remaining trend fields are not part of the event. -/
theorem event_fields_spec (trends : List CategoryTrend)
    (e : GratificationEvent)
    (he : e ∈ detect_delayed_gratification trends) :
    ∃ t ∈ trends, qualifiesTrend t ∧ e.category = t.category ∧
      e.previous_month_spend = t.previous_month_spend ∧
      e.current_month_spend = t.current_month_spend ∧
      e.percentage_change = t.percentage_change ∧
      e.saved_amount = -t.absolute_change ∧
      e.insight = { saved_amount := -t.absolute_change,
                    category := t.category,
                    percent_reduction := |t.percentage_change| } := by
  rcases mem_detect_iff.mp he with ⟨t, ht, hq, rfl⟩
  exact ⟨t, ht, hq, rfl, rfl, rfl, rfl, rfl, rfl⟩

/-- Witness for C9's amended claim at the worked example. -/
theorem event_fields_spec_witness :
    exampleEvent ∈ detect_delayed_gratification [exampleTrend] ∧
    ∃ t ∈ [exampleTrend], qualifiesTrend t ∧
      exampleEvent.category = t.category ∧
      exampleEvent.previous_month_spend = t.previous_month_spend ∧
      exampleEvent.current_month_spend = t.current_month_spend ∧
      exampleEvent.percentage_change = t.percentage_change ∧
      exampleEvent.saved_amount = -t.absolute_change ∧
      exampleEvent.insight = { saved_amount := -t.absolute_change,
                               category := t.category,
                               percent_reduction := |t.percentage_change| } :=
  have hmem : exampleEvent ∈ detect_delayed_gratification [exampleTrend] := by
    rw [example_detect]
    exact List.mem_singleton.mpr rfl
  ⟨hmem, event_fields_spec [exampleTrend] exampleEvent hmem⟩

/-- C8: the end-to-end worked example — "Eating Out" spends $150 then
$40, producing a discretionary decreasing trend with
`absolute_change = -110` and `percentage_change = -220/3 ≈ -73.3`, a
detected event saving $110, projections $660 / $2,640 / $6,600, and the
$2,640 projection maps to the threshold-1500 reward tier. -/
theorem pipeline_example_spec :
    get_category_spending_trends exampleTransactions = [exampleTrend] ∧
    exampleTrend.absolute_change = -110 ∧
    exampleTrend.percentage_change = -220/3 ∧
    exampleTrend.trend_direction = "decrease" ∧
    exampleTrend.classification = "discretionary" ∧
    detect_delayed_gratification [exampleTrend] = [exampleEvent] ∧
    exampleEvent.saved_amount = 110 ∧
    project_future_value 110 =
      [{ months := 6, future_value := 660 },
       { months := 24, future_value := 2640 },
       { months := 60, future_value := 6600 }] ∧
    ((1500 : ℚ), "✈️ A July flight to LAX") ∈ REWARD_MAPPING ∧
    map_to_reward 2640 = "✈️ A July flight to LAX" := by
  refine ⟨example_trends, rfl, rfl, rfl, rfl, example_detect, rfl, ?_, ?_, ?_⟩
  · rw [project_eq_map]
    norm_num
  · simp [REWARD_MAPPING]
  · norm_num [map_to_reward, firstReward, REWARD_MAPPING]

lemma sortByMonth_decomp {l : List CategoryMonthSpend}
    {curr prev : CategoryMonthSpend} {rest : List CategoryMonthSpend}
    (hrev : (sortByMonth l).reverse = curr :: prev :: rest) :
    sortByMonth l = rest.reverse ++ [prev, curr] := by
  have h := congrArg List.reverse hrev
  rw [List.reverse_reverse] at h
  rw [h]
  simp

lemma rev_prev_ne_curr {df : List Transaction} {c : String}
    {curr prev : CategoryMonthSpend} {rest : List CategoryMonthSpend}
    (hrev : (sortByMonth ((categoryMonthly (expenseRows df)).filter
      (fun r => decide (r.category = c)))).reverse = curr :: prev :: rest) :
    prev.month ≠ curr.month := by
  have hp := sorted_filter_months_ne df c
  rw [sortByMonth_decomp hrev, List.pairwise_append] at hp
  exact (List.pairwise_cons.mp hp.2.1).1 curr (List.mem_singleton.mpr rfl)

lemma exists_two_ne_of_nodup {α : Type} {l : List α} (hn : l.Nodup)
    (hl : 2 ≤ l.length) : ∃ a ∈ l, ∃ b ∈ l, a ≠ b := by
  cases l with
  | nil => simp at hl
  | cons a t =>
    cases t with
    | nil => simp at hl
    | cons b r =>
      refine ⟨a, List.mem_cons_self _ _, b,
        List.mem_cons_of_mem _ (List.mem_cons_self _ _), ?_⟩
      intro hab
      rcases List.nodup_cons.mp hn with ⟨hna, -⟩
      exact hna (hab ▸ List.mem_cons_self b r)

lemma exists_cons_cons_of_length {α : Type} {l : List α}
    (h : 2 ≤ l.length) : ∃ a b rest, l = a :: b :: rest := by
  cases l with
  | nil => simp at h
  | cons a t =>
    cases t with
    | nil => simp at h
    | cons b r => exact ⟨a, b, r, rfl⟩

/-- C2: the extractor produces a trend for a category iff the dataset
spans at least two distinct expense months (global gate) and the
category itself has expense activity in at least two distinct months;
the comparison uses the category's own two most recent months with
expense activity, which need not be adjacent calendar months. -/
theorem extract_trends_spec (df : List Transaction) (c : String) :
    ((expenseMonths df).length < 2 → get_category_spending_trends df = []) ∧
    ((∃ t ∈ get_category_spending_trends df, t.category = c) ↔
       (2 ≤ (expenseMonths df).length ∧
        2 ≤ (categoryExpenseMonths df c).length)) ∧
    (∀ t ∈ get_category_spending_trends df,
       t.previous_month < t.current_month ∧
       t.previous_month ∈ categoryExpenseMonths df t.category ∧
       t.current_month ∈ categoryExpenseMonths df t.category ∧
       ∀ m ∈ categoryExpenseMonths df t.category,
         m = t.current_month ∨ m ≤ t.previous_month) := by
  refine ⟨?_, ⟨?_, ?_⟩, ?_⟩
  · intro h
    simp only [get_category_spending_trends]
    split_ifs with h1 h2
    · rfl
    · rfl
    · exfalso
      rw [← expenseMonths_length_eq df] at h2
      exact h2 h
  · rintro ⟨t, ht, rfl⟩
    constructor
    · rw [expenseMonths_length_eq]
      exact (mem_trends_iff.mp ht).2.1
    · rcases mem_trends_inv ht with ⟨c', curr, prev, rest, -, hrev, rfl⟩
      rw [mkTrend_category]
      have hne := rev_prev_ne_curr hrev
      rcases rev_two_mem hrev with ⟨hcurrf, hprevf⟩
      have hpm : prev.month ∈ categoryExpenseMonths df c' :=
        mem_categoryExpenseMonths_row.mpr ⟨prev, hprevf, rfl⟩
      have hcm : curr.month ∈ categoryExpenseMonths df c' :=
        mem_categoryExpenseMonths_row.mpr ⟨curr, hcurrf, rfl⟩
      exact length_two_of_two_mem hpm hcm hne
  · rintro ⟨hglobal, hcat⟩
    have hnodup : (categoryExpenseMonths df c).Nodup := List.nodup_dedup _
    rcases exists_two_ne_of_nodup hnodup hcat with ⟨m1, hm1, m2, hm2, hne⟩
    rcases mem_categoryExpenseMonths_row.mp hm1 with ⟨r1, hr1, hr1m⟩
    rcases mem_categoryExpenseMonths_row.mp hm2 with ⟨r2, hr2, hr2m⟩
    have hr12 : r1 ≠ r2 := fun he => hne (by rw [← hr1m, ← hr2m, he])
    have hflen : 2 ≤ (((categoryMonthly (expenseRows df)).filter
        (fun r => decide (r.category = c)))).length :=
      length_two_of_two_mem hr1 hr2 hr12
    have hrlen : 2 ≤ ((sortByMonth ((categoryMonthly (expenseRows df)).filter
        (fun r => decide (r.category = c)))).reverse).length := by
      rw [List.length_reverse, (sortByMonth_perm _).length_eq]
      exact hflen
    rcases exists_cons_cons_of_length hrlen with ⟨curr, prev, rest, hrev⟩
    have hsome := trendFor_eq_some_of_rev hrev
    have hcmem : c ∈ categoriesOf (categoryMonthly (expenseRows df)) := by
      have hk := mem_categoryExpenseMonths_key.mp hm1
      rcases mem_groupKeys.mp hk with ⟨e, he, hcat', -⟩
      exact mem_categoriesOf.mpr ⟨e, he, hcat'⟩
    have hne' : (expenseRows df).isEmpty = false := by
      have hk := mem_categoryExpenseMonths_key.mp hm1
      rcases mem_groupKeys.mp hk with ⟨e, he, -, -⟩
      exact List.isEmpty_eq_false.mpr (List.ne_nil_of_mem he)
    refine ⟨mkTrend c prev curr, ?_, mkTrend_category c prev curr⟩
    exact mem_trends_iff.mpr
      ⟨hne', expenseMonths_length_eq df ▸ hglobal, c, hcmem, hsome⟩
  · intro t ht
    rcases mem_trends_inv ht with ⟨c', curr, prev, rest, -, hrev, rfl⟩
    simp only [mkTrend_category, mkTrend_previous_month, mkTrend_current_month]
    rcases rev_two_mem hrev with ⟨hcurrf, hprevf⟩
    rcases sorted_rev_top_two hrev with ⟨hle, htop⟩
    have hne := rev_prev_ne_curr hrev
    refine ⟨lt_of_le_of_ne hle hne,
      mem_categoryExpenseMonths_row.mpr ⟨prev, hprevf, rfl⟩,
      mem_categoryExpenseMonths_row.mpr ⟨curr, hcurrf, rfl⟩, ?_⟩
    intro m hm
    rcases mem_categoryExpenseMonths_row.mp hm with ⟨r, hr, rfl⟩
    rcases htop r hr with rfl | h
    · exact Or.inl rfl
    · exact Or.inr h

/-- A dataset with only one month of expense history, for the C2
witness's degenerate branch. -/
def oneMonthTransactions : List Transaction :=
  [{ date := { year := 2024, month := 1, day := 2 },
     category := "Coffee", amount := -5 }]

/-- Witness for C2: the one-month dataset yields no trends, and the
worked example's two-month dataset yields a trend for "Eating Out". -/
theorem extract_trends_spec_witness :
    ((expenseMonths oneMonthTransactions).length < 2 ∧
     get_category_spending_trends oneMonthTransactions = []) ∧
    ((2 ≤ (expenseMonths exampleTransactions).length ∧
      2 ≤ (categoryExpenseMonths exampleTransactions "Eating Out").length) ∧
     ∃ t ∈ get_category_spending_trends exampleTransactions,
       t.category = "Eating Out") :=
  have hlt : (expenseMonths oneMonthTransactions).length < 2 := by decide
  have hg : 2 ≤ (expenseMonths exampleTransactions).length := by decide
  have hc : 2 ≤ (categoryExpenseMonths exampleTransactions
      "Eating Out").length := by decide
  ⟨⟨hlt, (extract_trends_spec oneMonthTransactions "Coffee").1 hlt⟩,
   ⟨⟨hg, hc⟩, (extract_trends_spec exampleTransactions "Eating Out").2.1.mpr
     ⟨hg, hc⟩⟩⟩

/-- C6: the composer returns the fixed "insufficient history" result when
no trend exists, the fixed "no significant reduction" result when trends
exist but no event does, and otherwise reports every event with its
blocks, the total saved amount, and — exactly when total expenses (sum of
absolute values of the negative-amount transactions) are positive — the
percentage `total_saved / total_expenses * 100`; it is total on every
input. -/
theorem compose_spec (df : List Transaction) :
    (get_category_spending_trends df = [] →
       generate_delayed_gratification_insights df =
         { trends := [], delayed_gratification := [],
           detailed_insights := [],
           summary := SummaryMsg.insufficientHistory }) ∧
    (get_category_spending_trends df ≠ [] →
     detect_delayed_gratification (get_category_spending_trends df) = [] →
       generate_delayed_gratification_insights df =
         { trends := get_category_spending_trends df,
           delayed_gratification := [], detailed_insights := [],
           summary := SummaryMsg.noReduction }) ∧
    (detect_delayed_gratification (get_category_spending_trends df) ≠ [] →
       generate_delayed_gratification_insights df =
         { trends := get_category_spending_trends df,
           delayed_gratification :=
             detect_delayed_gratification (get_category_spending_trends df),
           detailed_insights :=
             (detect_delayed_gratification
               (get_category_spending_trends df)).map insightBlockFor,
           summary := SummaryMsg.report
             (((detect_delayed_gratification
                 (get_category_spending_trends df)).map
                 (fun e => e.saved_amount)).sum)
             (if 0 < totalExpensesAbs df then
                some ((((detect_delayed_gratification
                    (get_category_spending_trends df)).map
                    (fun e => e.saved_amount)).sum) /
                  totalExpensesAbs df * 100)
              else none) }) := by
  refine ⟨?_, ?_, ?_⟩
  · intro h
    simp [generate_delayed_gratification_insights, h]
  · intro h1 h2
    simp only [generate_delayed_gratification_insights]
    rw [if_neg (by rw [List.isEmpty_iff]; exact h1),
      if_pos (by rw [List.isEmpty_iff]; exact h2)]
  · intro h
    have h1 : get_category_spending_trends df ≠ [] := by
      intro he
      apply h
      rw [he]
      rfl
    simp only [generate_delayed_gratification_insights]
    rw [if_neg (by rw [List.isEmpty_iff]; exact h1),
      if_neg (by rw [List.isEmpty_iff]; exact h)]
    rw [foldl_add_saved, ← totalExpensesAbs_eq]
    split_ifs <;> rfl

/-- Witness for C6: the empty dataset hits the insufficient-history
branch; the worked example hits the reporting branch. -/
theorem compose_spec_witness :
    (get_category_spending_trends ([] : List Transaction) = [] ∧
     generate_delayed_gratification_insights [] =
       { trends := [], delayed_gratification := [], detailed_insights := [],
         summary := SummaryMsg.insufficientHistory }) ∧
    (detect_delayed_gratification
        (get_category_spending_trends exampleTransactions) ≠ [] ∧
     generate_delayed_gratification_insights exampleTransactions =
       { trends := get_category_spending_trends exampleTransactions,
         delayed_gratification :=
           detect_delayed_gratification
             (get_category_spending_trends exampleTransactions),
         detailed_insights :=
           (detect_delayed_gratification
             (get_category_spending_trends exampleTransactions)).map
             insightBlockFor,
         summary := SummaryMsg.report
           (((detect_delayed_gratification
               (get_category_spending_trends exampleTransactions)).map
               (fun e => e.saved_amount)).sum)
           (if 0 < totalExpensesAbs exampleTransactions then
              some ((((detect_delayed_gratification
                  (get_category_spending_trends exampleTransactions)).map
                  (fun e => e.saved_amount)).sum) /
                totalExpensesAbs exampleTransactions * 100)
            else none) }) :=
  have h0 : get_category_spending_trends ([] : List Transaction) = [] := rfl
  have hne : detect_delayed_gratification
      (get_category_spending_trends exampleTransactions) ≠ [] := by
    rw [example_trends, example_detect]
    simp
  ⟨⟨h0, (compose_spec []).1 h0⟩,
   ⟨hne, (compose_spec exampleTransactions).2.2 hne⟩⟩

end DelayedGrat
